import Mathlib

/-!
Verification development for the rotki frontend (Vue/TypeScript presentation
layer).  The definitions below are shallow embeddings of the client-side
utilities the specification talks about:

* the table-filter engine (`updateMatches` / `restoreSelection`) from
  `components/table-filter/TableFilter.vue`,
* the pagination selector (`pageSelectorData`) from
  `components/helper/DataTable.vue`,
* the database-backup manager (`remove`, `loadInfo`) and the
  external-service key form (`save`), the managed-asset form error handler,
* the snapshot "total" edit step (`assetTotal`, `numericTotal`, `setTotal`,
  `save`) from the edit-snapshot dialog,
* the history-events polling timer.

JavaScript strings are modelled by `String`, JavaScript numbers used as
counters/indices by `Nat`/`Int` and `BigNumber` decimal values by `Rat`
(`bignumber.js` addition, subtraction, negation and comparison are exact on
decimals, so `Rat` is a faithful carrier for the operations used here).
JavaScript objects used as string-keyed dictionaries are modelled by
insertion-ordered association lists, matching `Object.entries` enumeration
order.  A thrown `TypeError` is modelled by an `Option` result being `none`.
-/

namespace Rotki

/-! ## Table filter: data model (`types/filtering`, TableFilter.vue) -/

/-- Asset metadata, the slice of the `AssetInfo` type of the rotki common library that the embedded
operations inspect (only the `identifier` field is read by the filter
engine). -/
structure AssetInfo where
  identifier : String
  deriving DecidableEq, Repr

/-- The value carried by a filter chip: either a plain string or an asset
object (`Suggestion.value : string | AssetInfo`). -/
inductive SVal where
  | strValue (s : String)
  | assetValue (a : AssetInfo)
  deriving DecidableEq, Repr

/-- A filter chip (`Suggestion` in `types/filtering`). -/
structure Suggestion where
  index : Int
  total : Int
  asset : Bool
  key : String
  value : SVal
  exclude : Bool := false
  deriving DecidableEq, Repr

/-- The data of a string matcher (`StringSuggestionMatcher`): `validate`,
and the optional `serializer`/`deserializer`.  The `suggestions` thunk and
UI-only fields (`description`, `hint`, `allowExclusion`) are not read by
`updateMatches`/`restoreSelection` and are omitted. -/
structure StrMatcherData where
  validate : String → Bool
  serializer : Option (String → String) := none
  deserializer : Option (String → String) := none

/-- Matcher discrimination: the in-operator test on the `string` field vs `matcher.asset`.  The
`deserializer` of an asset matcher maps an identifier to an `AssetInfo` or
`null` (`none`). -/
inductive MatcherKind where
  | strKind (d : StrMatcherData)
  | assetKind (deserializer : Option (String → Option AssetInfo))

/-- A configured matcher (`SearchMatcher` in `types/filtering`). -/
structure SearchMatcher where
  key : String
  keyValue : Option String := none
  kind : MatcherKind
  multiple : Bool := false

/-- A value of the emitted `MatchedKeyword` object: a single string or an
accumulated array (`string | string[]`). -/
inductive MatchedValue where
  | single (s : String)
  | arr (l : List String)
  deriving DecidableEq, Repr

/-- The emitted `MatchedKeyword` object, as an insertion-ordered
association list (JavaScript string-keyed objects enumerate in insertion
order). -/
abbrev Matched := List (String × MatchedValue)

/-- `matchers.find(({ key }) => key === searchKey)`. -/
def matcherForKey (M : List SearchMatcher) (k : String) : Option SearchMatcher :=
  M.find? (fun m => m.key = k)

/-- `matchers.find(({ keyValue }) => keyValue === searchKey)`; a matcher
without `keyValue` (`undefined`) never compares equal to a string. -/
def matcherForKeyValue (M : List SearchMatcher) (k : String) : Option SearchMatcher :=
  M.find? (fun m => m.keyValue = some k)

/-- `(matcher.keyValue || matcher.key)`: the empty string is falsy. -/
def valueKeyOf (m : SearchMatcher) : String :=
  match m.keyValue with
  | some kv => if kv = "" then m.key else kv
  | none => m.key

/-- `matcher.serializer?.(entry.value) || entry.value`: apply the serializer
when present, falling back to the raw value when the output is falsy. -/
def serializedOf (d : StrMatcherData) (s : String) : String :=
  match d.serializer with
  | some f => if f s = "" then s else f s
  | none => s

/-- `foundMatchers.deserializer?.(normalizedValue) || normalizedValue` for a
string matcher. -/
def strDeser (d : StrMatcherData) (t : String) : String :=
  match d.deserializer with
  | some g => if g t = "" then t else g t
  | none => t

/-- `value.startsWith` at the exclamation mark, specialised to the one-character prefix the
engine uses. -/
def jsStartsWithBang (s : String) : Bool :=
  match s.data with
  | c :: _ => c = '!'
  | [] => false

/-- `value.substring` from index one. -/
def jsDropFirst (s : String) : String :=
  String.mk (s.data.drop 1)

/-! ## Table filter: `updateMatches` (TableFilter.vue lines 68-117) -/

/-- The keyword computed for one entry inside the `updateMatches` loop;
`none` models the `continue` statements (no matcher kind match, non-string
value on a string matcher, failed `validate`). -/
def entryKeyword (m : SearchMatcher) (e : Suggestion) : Option String :=
  match m.kind with
  | .strKind d =>
    match e.value with
    | .assetValue _ => none
    | .strValue s =>
      if d.validate s then
        let t := serializedOf d s
        some (if e.exclude then "!" ++ t else t)
      else none
  | .assetKind _ =>
    some (match e.value with
      | .strValue s => s
      | .assetValue a => a.identifier)

/-- `matched[valueKey] = transformedKeyword` for a non-`multiple` matcher:
plain JavaScript property assignment (replace in place, or append a new
key). -/
def setSingle : Matched → String → String → Matched
  | [], k, t => [(k, .single t)]
  | (k', v) :: rest, k, t =>
    if k' = k then (k, .single t) :: rest else (k', v) :: setSingle rest k t

/-- The `multiple` branch: `if (!matched[valueKey]) matched[valueKey] = [];
(matched[valueKey] as string[]).push(transformedKeyword)`.  A pre-existing
non-empty string at the key makes the `push` call throw a `TypeError`
(`none`); a falsy empty-string entry is overwritten by a fresh array first. -/
def pushMulti : Matched → String → String → Option Matched
  | [], k, t => some [(k, .arr [t])]
  | (k', v) :: rest, k, t =>
    if k' = k then
      match v with
      | .arr l => some ((k, .arr (l ++ [t])) :: rest)
      | .single s => if s = "" then some ((k, .arr [t]) :: rest) else none
    else (pushMulti rest k t).map (fun r => (k', v) :: r)

/-- The `for (const entry of pairs)` loop of `updateMatches`, threading the
`matched` object and the `validPairs` accumulator; `none` models a thrown
`TypeError` (in which case neither the selection update nor the emit
happens). -/
def updateLoop (M : List SearchMatcher) :
    List Suggestion → Matched → List Suggestion → Option (Matched × List Suggestion)
  | [], matched, valid => some (matched, valid)
  | e :: rest, matched, valid =>
    match matcherForKey M e.key with
    | none => updateLoop M rest matched valid
    | some m =>
      match entryKeyword m e with
      | none => updateLoop M rest matched valid
      | some t =>
        if t = "" then updateLoop M rest matched valid
        else
          if m.multiple then
            match pushMulti matched (valueKeyOf m) t with
            | none => none
            | some matched' => updateLoop M rest matched' (valid ++ [e])
          else updateLoop M rest (setSingle matched (valueKeyOf m) t) (valid ++ [e])

/-- `updateMatches(pairs)`: returns the retained selection (`validPairs`,
written to `selection`) and the emitted `matched` object
(the `update:matches` emit). -/
def updateMatches (M : List SearchMatcher) (pairs : List Suggestion) :
    Option (List Suggestion × Matched) :=
  (updateLoop M pairs [] []).map (fun r => (r.2, r.1))

/-! ## Table filter: `restoreSelection` (TableFilter.vue lines 257-304) -/

/-- Truthiness of a `MatchedKeyword` entry value, as tested by
`if (!(foundMatchers && value))`: only the empty string is falsy. -/
def mvFalsy : MatchedValue → Bool
  | .single s => s = ""
  | .arr _ => false

/-- Truthiness of a chip value, as tested by `if (!deserializedValue)`. -/
def svalFalsy : SVal → Bool
  | .strValue s => s = ""
  | .assetValue _ => false

/-- The body run for one `Object.entries(matches)` pair inside
`restoreSelection`: the suggestions pushed for that key. -/
def restoreEntry (M : List SearchMatcher) (oldSelection : List Suggestion)
    (key : String) (value : MatchedValue) : List Suggestion :=
  match matcherForKeyValue M key with
  | none => []
  | some m =>
    if mvFalsy value then []
    else
      let values := match value with
        | .single s => [s]
        | .arr l => l
      let asset : Bool := match m.kind with
        | .assetKind _ => true
        | .strKind _ => false
      values.map (fun v =>
        let prev : Option SVal :=
          if asset then
            (oldSelection.find? (fun s => s.key = m.key)).map (fun s => s.value)
          else none
        let deser0 : Option SVal := match prev with
          | some pv => if svalFalsy pv then none else some pv
          | none => none
        match deser0 with
        | some dv =>
          { index := 0, total := 1, asset := asset, key := m.key,
            value := dv, exclude := false }
        | none =>
          let strip := !asset && jsStartsWithBang v
          let normalized := if strip then jsDropFirst v else v
          let exclude := strip
          let dv : SVal := match m.kind with
            | .strKind d => .strValue (strDeser d normalized)
            | .assetKind deserializer =>
              match deserializer with
              | some g =>
                match g normalized with
                | some a => .assetValue a
                | none => .strValue normalized
              | none => .strValue normalized
          { index := 0, total := 1, asset := asset, key := m.key,
            value := dv, exclude := exclude })

/-- `restoreSelection(matches)`: rebuilds the chip selection from a
`MatchedKeyword` object (the new selection written to `selection`). -/
def restoreSelection (M : List SearchMatcher) (oldSelection : List Suggestion)
    (ms : Matched) : List Suggestion :=
  (ms.map (fun p => restoreEntry M oldSelection p.1 p.2)).flatten

/-! ## DataTable.vue: `pageSelectorData` (lines 116-132) -/

/-- One entry of the page selector dropdown. -/
structure PageEntry where
  value : Nat
  text : String
  deriving DecidableEq, Repr

/-- `pageSelectorData`: `Math.ceil(itemsLength / perPage)` entries, the
`i`-th carrying page number `i + 1` and the label
`` `${i*perPage+1} - ${Math.min((i+1)*perPage, itemsLength)}` ``.
For `perPage > 0` the ceiling of the exact quotient is
`(itemsLength + perPage - 1) / perPage` in `Nat` division (`perPage = 0`,
which in JavaScript produces `Infinity` and an invalid array length, is
outside the modelled domain). -/
def pageSelectorData (itemsLength perPage : Nat) : List PageEntry :=
  (List.range ((itemsLength + perPage - 1) / perPage)).map (fun index =>
    { value := index + 1,
      text := toString (index * perPage + 1) ++ " - " ++
        toString (min ((index + 1) * perPage) itemsLength) })

/-! ## Backup manager (`DatabaseBackups` / `BackupManager` component) -/

/-- A user database backup entry (`UserDbBackup` in `types/backup`); `time`
is an epoch timestamp and `size` a byte count. -/
structure UserDbBackup where
  version : Nat
  time : Nat
  size : Nat
  deriving DecidableEq, Repr

/-- `isSameEntry`: field-wise comparison of version, time and size. -/
def isSameEntry (firstDb secondDb : UserDbBackup) : Bool :=
  firstDb.version == secondDb.version && firstDb.time == secondDb.time &&
    firstDb.size == secondDb.size

/-- `userdb.info` of `DatabaseInfo`. -/
structure UserDbInfo where
  filepath : String
  size : Nat
  version : Nat
  deriving DecidableEq, Repr

/-- `userdb` of `DatabaseInfo`. -/
structure UserDb where
  info : UserDbInfo
  backups : List UserDbBackup
  deriving DecidableEq, Repr

/-- `globaldb` of `DatabaseInfo`. -/
structure GlobalDb where
  globaldbAssetsVersion : Nat
  globaldbSchemaVersion : Nat
  deriving DecidableEq, Repr

/-- `DatabaseInfo` (`types/backup`). -/
structure DatabaseInfo where
  globaldb : GlobalDb
  userdb : UserDb
  deriving DecidableEq, Repr

/-- Modelled from the spec: the `getFilepath` utility is referenced by the
backup manager but its definition is not among the provided sources; the
backup-management section of the spec treats filepaths as opaque strings
handed to the REST backend, so it is modelled as building the file name of the backup inside the backup directory.  It only feeds notification text. -/
def getFilepath (db : UserDbBackup) (directory : String) : String :=
  directory ++ toString db.time ++ "_rotkehlchen_db_v" ++
    toString db.version ++ ".backup"

/-- A notification raised through `useNotificationsStore` (`display`,
`title`, `message` are the fields the embedded code sets). -/
structure BackupNotification where
  display : Bool
  title : String
  message : String
  deriving DecidableEq, Repr

/-- An i18n lookup `t(key, params)`; message resolution lives outside this
repository, so it is modelled as the key applied to its parameters. -/
def tr (key : String) (params : List String) : String :=
  key ++ String.join (params.map (fun p => " " ++ p))

/-- The notification raised when `deleteBackup` rejects in `remove`. -/
def deleteErrorNotification (filepath message : String) : BackupNotification :=
  { display := true,
    title := tr "database_backups.delete_error.title" [],
    message := tr "database_backups.delete_error.message" [filepath, message] }

/-- `Array.prototype.findIndex`: first matching index or `-1`. -/
def jsFindIndex (l : List UserDbBackup) (p : UserDbBackup → Bool) : Int :=
  match l.findIdx? p with
  | some i => (i : Int)
  | none => -1

/-- `backups.splice(start, 1)`: a negative `start` counts from the end and
is clamped at `0`; a `start` at or beyond the length removes nothing. -/
def jsSpliceRemoveOne (l : List UserDbBackup) (start : Int) : List UserDbBackup :=
  let s : Nat := if start < 0 then ((l.length : Int) + start).toNat else start.toNat
  l.eraseIdx s

/-- The `remove(db)` action of the backup manager: awaits
`deleteBackup([filepath])` (its outcome passed as `deleteResult`), then on
success drops the first `isSameEntry`-equal backup from `backupInfo` and
filters the selection; on rejection it leaves both untouched and notifies.
Result: the new `(backupInfo, selected)` state and the notification, if
any. -/
def removeBackup (db : UserDbBackup) (directory : String)
    (deleteResult : Except String Unit) (backupInfo : Option DatabaseInfo)
    (selected : List UserDbBackup) :
    (Option DatabaseInfo × List UserDbBackup) × Option BackupNotification :=
  let filepath := getFilepath db directory
  match deleteResult with
  | .error e => ((backupInfo, selected), some (deleteErrorNotification filepath e))
  | .ok _ =>
    match backupInfo with
    | none => ((none, selected), none)
    | some info =>
      let index := jsFindIndex info.userdb.backups (fun backup => isSameEntry backup db)
      let backups' := jsSpliceRemoveOne info.userdb.backups index
      let info' : DatabaseInfo :=
        { info with userdb := { info.userdb with backups := backups' } }
      let selected' :=
        if selected.length > 0 then
          selected.filter (fun item => !isSameEntry item db)
        else selected
      ((some info', selected'), none)

/-- `loadInfo`: `set(backupInfo, await info())` inside `try`, with a
catch-and-notify fallback that leaves `backupInfo` unchanged.  Result: the
new `backupInfo` and the notifications raised. -/
def loadInfo (result : Except String DatabaseInfo)
    (backupInfo : Option DatabaseInfo) :
    Option DatabaseInfo × List BackupNotification :=
  match result with
  | .ok info => (some info, [])
  | .error e =>
    (backupInfo,
      [{ display := true,
         title := tr "database_backups.load_error.title" [],
         message := tr "database_backups.load_error.message" [e] }])

/-! ## External service keys form (`ExternalServices` component) -/

/-- `ExternalServiceKeys` as returned by the backend: each service entry is
optional and carries an `apiKey`. -/
structure ExternalServiceKeys where
  etherscan : Option String := none
  optimismEtherscan : Option String := none
  polygonPosEtherscan : Option String := none
  cryptocompare : Option String := none
  covalent : Option String := none
  beaconchain : Option String := none
  loopring : Option String := none
  opensea : Option String := none
  deriving DecidableEq, Repr

/-- The key state of the component: the three etherscan tab values and the five
plain key refs. -/
structure ExtKeysState where
  etherscanKey : String := ""
  optimismKey : String := ""
  polygonKey : String := ""
  cryptocompareKey : String := ""
  covalentKey : String := ""
  beaconchainKey : String := ""
  loopringKey : String := ""
  openseaKey : String := ""
  deriving DecidableEq, Repr

/-- `updateKeys`: copy each service key, with the empty string for a
missing service (`apiKey` or-else empty), into the state. -/
def updateKeys (k : ExternalServiceKeys) : ExtKeysState :=
  { etherscanKey := k.etherscan.getD "",
    optimismKey := k.optimismEtherscan.getD "",
    polygonKey := k.polygonPosEtherscan.getD "",
    cryptocompareKey := k.cryptocompare.getD "",
    covalentKey := k.covalent.getD "",
    beaconchainKey := k.beaconchain.getD "",
    loopringKey := k.loopring.getD "",
    openseaKey := k.opensea.getD "" }

/-- A `setMessage` payload (`useMessageStore`). -/
structure UiMessage where
  title : String
  description : String
  success : Bool
  deriving DecidableEq, Repr

/-- The external-services `save(serviceName, key)` handler: on success the
returned keys replace the state and a success message is shown; on a
rejected call the state is untouched and the backend error message is put
into an error message (`external_services.set.error.message`). -/
def externalServicesSave (serviceName : String)
    (result : Except String ExternalServiceKeys) (st : ExtKeysState) :
    ExtKeysState × UiMessage :=
  match result with
  | .ok keys =>
    (updateKeys keys,
      { title := tr "external_services.set.success.title" [],
        description := tr "external_services.set.success.message" [serviceName],
        success := true })
  | .error e =>
    (st,
      { title := tr "external_services.set.error.title" [],
        description := tr "external_services.set.error.message" [e],
        success := false })

/-! ## Managed-asset form: `save` error handling (asset manager form) -/

/-- One underlying-token validation record
(`{ address: string[]; weight: string[] }`). -/
structure UnderlyingTokenErr where
  address : List String
  weight : List String
  deriving DecidableEq, Repr

/-- The `underlyingTokens` part of a validation payload: a bare string or a
record keyed by token. -/
inductive UnderlyingTokensErrs where
  | str (s : String)
  | entries (l : List (String × UnderlyingTokenErr))
  deriving DecidableEq, Repr

/-- A structured validation object: the two specially-handled keys
(`underlyingTokens`, `_schema`) and the remaining per-field message lists
(what the `omit` of `underlyingTokens` and `_schema` keeps). -/
structure ValidationObject where
  underlyingTokens : Option UnderlyingTokensErrs := none
  schemaErrors : Option (List String) := none
  fields : List (String × List String) := []
  deriving DecidableEq, Repr

/-- `ApiValidationError.getValidationErrors` returns either a plain string
or a structured object. -/
inductive ValidationPayload where
  | strMsg (s : String)
  | fieldErrs (obj : ValidationObject)
  deriving DecidableEq, Repr

/-- The error caught by `save` of the asset form: a generic `Error` (only
its `message` is read) or an `ApiValidationError`. -/
inductive AssetSaveErr where
  | generic (message : String)
  | apiValidation (v : ValidationPayload)
  deriving DecidableEq, Repr

/-- `getUnderlyingTokenErrors`: flattens the record into a message list
(note the source tests `underlyingTokens.weight` — a key lookup on the
record — before pushing `ut.weight`). -/
def getUnderlyingTokenErrors : UnderlyingTokensErrs → List String
  | .str s => [s]
  | .entries l =>
    let hasWeightKey := (l.lookup "weight").isSome
    (l.map (fun p =>
      p.2.address ++ (if hasWeightKey then p.2.weight else []))).flatten

/-- `handleError`: routes `underlyingTokens` / `_schema` messages into a
dialog message. -/
def handleError (obj : ValidationObject) : UiMessage :=
  match obj.underlyingTokens with
  | some ut =>
    { title := tr "asset_form.underlying_tokens" [],
      description := String.intercalate "," (getUnderlyingTokenErrors ut),
      success := false }
  | none =>
    { title := tr "asset_form.underlying_tokens" [],
      description := (obj.schemaErrors.getD []).headD "",
      success := false }

/-- The outcome of the `catch` block of the asset form `save`: the dialog messages
shown and the per-field errors written to the vuelidate
`$externalResults` ref. -/
structure AssetCatchResult where
  messages : List UiMessage
  fieldErrors : List (String × List String)
  deriving DecidableEq, Repr

/-- The `catch (e)` branch of the managed-asset `save`: a plain string
message becomes a dialog message, while a structured `ApiValidationError`
payload routes its special keys through `handleError` and writes the rest
into the per-field external validation results. -/
def assetSaveCatch (editing : Bool) (e : AssetSaveErr) : AssetCatchResult :=
  let errorsMessage : ValidationPayload :=
    match e with
    | .generic message => .strMsg message
    | .apiValidation v => v
  match errorsMessage with
  | .strMsg s =>
    { messages :=
        [{ title := tr (if editing then "asset_form.edit_error" else "asset_form.add_error") [],
           description := s,
           success := false }],
      fieldErrors := [] }
  | .fieldErrs obj =>
    { messages :=
        if obj.underlyingTokens.isSome || obj.schemaErrors.isSome then
          [handleError obj]
        else [],
      fieldErrors := obj.fields }

/-! ## History events view: background refresh timer -/

/-- The delay passed to `useIntervalFn(() => { fetchData();
fetchAssociatedLocations(); }, 20000)` in the history-events view,
in milliseconds. -/
def historyEventsRefreshDelayMs : Nat := 20000

/-- The time (ms) of the `n`-th callback invocation of an interval timer
started at `startMs` and left active: `useIntervalFn` fires every `delay`
milliseconds. -/
def intervalFireTime (delay startMs n : Nat) : Nat :=
  startMs + (n + 1) * delay

/-- The `watch(shouldFetchEventsRegularly, ...)` body: `resume()` when
polling is wanted and the timer inactive, `pause()` when unwanted and
active; returns the resulting `isActive`. -/
def refreshWatchStep (shouldFetch active : Bool) : Bool :=
  if shouldFetch && !active then true
  else if !shouldFetch && active then false
  else active

/-! ## Edit-snapshot "total" step (`EditSnapshotTotal` form) -/

/-- A row of the balances snapshot (`BalanceSnapshot` in
`types/snapshots`); `usdValue` and `amount` are `BigNumber` decimals. -/
structure BalanceSnapshot where
  timestamp : Nat
  category : String
  assetIdentifier : String
  amount : Rat
  usdValue : Rat
  deriving DecidableEq, Repr

/-- A row of the location-data snapshot (`LocationDataSnapshot`). -/
structure LocationDataSnapshot where
  timestamp : Nat
  location : String
  usdValue : Rat
  deriving DecidableEq, Repr

/-- `assetTotal`: sum of the balance rows, liabilities negated
(`bigNumberSum` over `usdValue` / `usdValue.negated()`). -/
def assetTotal (balancesSnapshot : List BalanceSnapshot) : Rat :=
  (balancesSnapshot.map (fun item =>
    if item.category = "asset" then item.usdValue else -item.usdValue)).sum

/-- `locationTotal`: sum of the location rows, the `total` location row counted as
zero. -/
def locationTotal (value : List LocationDataSnapshot) : Rat :=
  (value.map (fun item =>
    if item.location = "total" then (0 : Rat) else item.usdValue)).sum

/-- The suggestion block offered under the total input. -/
inductive TotalSuggestions where
  | totalOnly (total : Rat)
  | assetAndLocation (asset location : Rat)
  deriving DecidableEq, Repr

/-- `suggestions`: one combined suggestion when asset and location totals
agree within `1e-8`, otherwise both. -/
def totalSuggestions (balancesSnapshot : List BalanceSnapshot)
    (value : List LocationDataSnapshot) : TotalSuggestions :=
  let a := assetTotal balancesSnapshot
  let l := locationTotal value
  if |a - l| < 1 / 100000000 then .totalOnly a else .assetAndLocation a l

/-- `numericTotal`: the parsed total input (`none` models the empty
string), converted from the display currency back to USD. -/
def numericTotal (total : Option Rat) (currencySymbol : String)
    (fiatExchangeRate : Rat) : Rat :=
  match total with
  | none => 0
  | some v => if currencySymbol = "USD" then v else v / fiatExchangeRate

/-- `setTotal(number)`: writes the suggestion into the total input,
converting USD to the display currency (`toFixed`/`bigNumberify` round-trip
a decimal value exactly, so the input is carried as its numeric value). -/
def setTotal (number : Rat) (currencySymbol : String)
    (fiatExchangeRate : Rat) : Option Rat :=
  some (if currencySymbol = "USD" then number else number * fiatExchangeRate)

/-- The `save` of the form: find the first `total` location row and overwrite its
`usdValue` with `numericTotal`; with no `total` row the source indexes
the array at `-1` and throws (`none`). -/
def saveTotal : List LocationDataSnapshot → Rat → Option (List LocationDataSnapshot)
  | [], _ => none
  | x :: xs, tot =>
    if x.location = "total" then some ({ x with usdValue := tot } :: xs)
    else (saveTotal xs tot).map (fun r => x :: r)

/-! ## Observation helpers for the emitted `MatchedKeyword` object -/

/-- Property lookup on the emitted object (`matched[key]`). -/
def mLookup : Matched → String → Option MatchedValue
  | [], _ => none
  | (k1, v) :: rest, k => if k1 = k then some v else mLookup rest k

/-- The array a `multiple` matcher would append to at `key`: an absent or
falsy (empty-string) property reads as the fresh empty array, an existing
array as itself; a truthy single string means the `push` would throw
(`none`). -/
def oldArrAt (matched : Matched) (k : String) : Option (List String) :=
  match mLookup matched k with
  | none => some []
  | some (.arr l) => some l
  | some (.single s) => if s = "" then some [] else none

/-- The exclusion tag applied to a serialized keyword
(`transformedKeyword` gets a leading exclamation mark when the entry is
excluded). -/
def excludeTag (exclude : Bool) (t : String) : String :=
  if exclude then "!" ++ t else t

/-- The balances snapshot of the C5 counterexample: one asset row and one
liability row, with computed asset total `5 - 2 = 3`. -/
def balancesCx : List BalanceSnapshot :=
  [{ timestamp := 1000, category := "asset", assetIdentifier := "BTC",
     amount := 1, usdValue := 5 },
   { timestamp := 1000, category := "liability", assetIdentifier := "LOAN",
     amount := 1, usdValue := 2 }]

/-- The location rows of the C5 counterexample, with a stale `total` row. -/
def locationsCx : List LocationDataSnapshot :=
  [{ timestamp := 1000, location := "kraken", usdValue := 10 },
   { timestamp := 1000, location := "total", usdValue := 9 }]

/-- The balances snapshot of the C5 witness. -/
def balancesW : List BalanceSnapshot :=
  [{ timestamp := 2000, category := "asset", assetIdentifier := "ETH",
     amount := 2, usdValue := 7 }]

/-- The location rows of the C5 witness. -/
def locationsW : List LocationDataSnapshot :=
  [{ timestamp := 2000, location := "binance", usdValue := 7 },
   { timestamp := 2000, location := "total", usdValue := 9 }]

/-- The string matcher of the C1 counterexample: every value passes
`validate`, no serializer. -/
def cxAcceptAll : StrMatcherData := { validate := fun _ => true }

/-- The matcher list of the C1 counterexample. -/
def cxMatchers : List SearchMatcher :=
  [{ key := "k", keyValue := some "k", kind := .strKind cxAcceptAll,
     multiple := false }]

/-- The entry of the C1 counterexample: the empty-string value, which the
matcher validates. -/
def cxEntry : Suggestion :=
  { index := 0, total := 1, asset := false, key := "k",
    value := .strValue "", exclude := false }

/-- The string matcher of the C1 witness, the shape of the asset-movement
`action` matcher: `validate` accepts the two movement categories. -/
def wActionData : StrMatcherData :=
  { validate := fun s => s == "deposit" || s == "withdrawal" }

/-- The matcher of the C1 witness. -/
def wActionMatcher : SearchMatcher :=
  { key := "action", keyValue := some "action",
    kind := .strKind wActionData, multiple := false }

/-- The entry of the C1 witness. -/
def wActionEntry : Suggestion :=
  { index := 0, total := 1, asset := false, key := "action",
    value := .strValue "deposit", exclude := false }

/-- The pair the loop inserts into `matched` for a valid string-matcher
entry. -/
def entryEmit (M : List SearchMatcher) (e : Suggestion) : String × MatchedValue :=
  match matcherForKey M e.key with
  | none => ("", .single "")
  | some m =>
    match m.kind, e.value with
    | .strKind d, .strValue s =>
      (valueKeyOf m,
        if m.multiple then .arr [excludeTag e.exclude (serializedOf d s)]
        else .single (excludeTag e.exclude (serializedOf d s)))
    | _, _ => ("", .single "")

/-- The hypotheses under which one selection entry round-trips. -/
def entryOK (M : List SearchMatcher) (e : Suggestion) : Prop :=
  ∃ m d s kv,
    matcherForKey M e.key = some m ∧
    m.kind = .strKind d ∧
    e.value = .strValue s ∧
    d.validate s = true ∧
    serializedOf d s ≠ "" ∧
    jsStartsWithBang (serializedOf d s) = false ∧
    m.keyValue = some kv ∧
    kv ≠ "" ∧
    matcherForKeyValue M kv = some m ∧
    strDeser d (serializedOf d s) = s

/-- The matcher data of the C6 counterexample. -/
def c6NoKvData : StrMatcherData := { validate := fun _ => true }

/-- The matcher list of the C6 counterexample: a string matcher without
`keyValue`. -/
def c6NoKvMatchers : List SearchMatcher :=
  [{ key := "k", keyValue := none, kind := .strKind c6NoKvData,
     multiple := false }]

/-- The selection of the C6 counterexample. -/
def c6NoKvSel : List Suggestion :=
  [{ index := 0, total := 1, asset := false, key := "k",
     value := .strValue "v", exclude := false }]

/-- The matcher data of the C6 witness: a timestamp-flavoured serializer
with its inverse deserializer. -/
def c6wData : StrMatcherData :=
  { validate := fun s => decide (0 < s.length),
    serializer := some (fun s => "ts" ++ s),
    deserializer := some (fun t => String.mk (t.data.drop 2)) }

/-- The matcher of the C6 witness, shaped like the asset-movement `start`
matcher (`key start`, `keyValue fromTimestamp`). -/
def c6wMatcher : SearchMatcher :=
  { key := "start", keyValue := some "fromTimestamp",
    kind := .strKind c6wData, multiple := false }

/-- The selection of the C6 witness: one excluded entry. -/
def c6wSel : List Suggestion :=
  [{ index := 0, total := 1, asset := false, key := "start",
     value := .strValue "17", exclude := true }]

/-- Prepending the exclusion mark never yields the empty string. -/
theorem bangAppend_ne_empty (t : String) : "!" ++ t ≠ "" := by
  intro h
  have hlen := congrArg String.length h
  rw [String.length_append] at hlen
  have h1 : ("!" : String).length = 1 := by decide
  have h0 : ("" : String).length = 0 := by decide
  rw [h1, h0] at hlen
  omega

/-- After a plain assignment the property holds exactly the assigned
string. -/
theorem mLookup_setSingle_self (matched : Matched) (k t : String) :
    mLookup (setSingle matched k t) k = some (.single t) := by
  induction matched with
  | nil => simp [setSingle, mLookup]
  | cons p rest ih =>
    obtain ⟨k1, v1⟩ := p
    by_cases hk : k1 = k
    · subst hk; simp [setSingle, mLookup]
    · simp [setSingle, mLookup, hk, ih]

/-- The `multiple` push appends to the existing (or fresh) array at the
key. -/
theorem pushMulti_oldArr (matched : Matched) (k t : String) (l : List String)
    (h : oldArrAt matched k = some l) :
    ∃ matched2, pushMulti matched k t = some matched2 ∧
      mLookup matched2 k = some (.arr (l ++ [t])) := by
  induction matched with
  | nil =>
    simp [oldArrAt, mLookup] at h
    subst h
    exact ⟨[(k, .arr [t])], by simp [pushMulti], by simp [mLookup]⟩
  | cons p rest ih =>
    obtain ⟨k1, v1⟩ := p
    by_cases hk : k1 = k
    · subst hk
      cases v1 with
      | arr l1 =>
        have hl : l1 = l := by simpa [oldArrAt, mLookup] using h
        subst hl
        exact ⟨(k1, .arr (l1 ++ [t])) :: rest, by simp [pushMulti], by simp [mLookup]⟩
      | single s1 =>
        by_cases hs : s1 = ""
        · subst hs
          have hl : ([] : List String) = l := by simpa [oldArrAt, mLookup] using h
          subst hl
          exact ⟨(k1, .arr [t]) :: rest, by simp [pushMulti], by simp [mLookup]⟩
        · exfalso
          simp [oldArrAt, mLookup, hs] at h
    · have hrest : oldArrAt rest k = some l := by
        simpa [oldArrAt, mLookup, hk] using h
      obtain ⟨m2, hpush, hlook⟩ := ih hrest
      exact ⟨(k1, v1) :: m2, by simp [pushMulti, hk, hpush],
        by simp [mLookup, hk, hlook]⟩

/-! ## Theorems -/

/-- C2: for every items length `N > 0` and items-per-page `p > 0`, the data
table pagination mapping produces exactly `ceil(N / p)` page entries (the
length both equals the ceiling expression and satisfies the ceiling
characterisation `p * (len - 1) < N ≤ p * len`), and the entry at 0-based
index `i` has value `i + 1` and label text
`(i * p) + 1 - min((i + 1) * p, N)`. -/
theorem C2_pageSelectorData (N p : Nat) (hN : 0 < N) (hp : 0 < p) :
    (pageSelectorData N p).length = (N + p - 1) / p ∧
    N ≤ p * (pageSelectorData N p).length ∧
    p * ((pageSelectorData N p).length - 1) < N ∧
    ∀ i, (h : i < (pageSelectorData N p).length) →
      (pageSelectorData N p)[i] =
        { value := i + 1,
          text := toString (i * p + 1) ++ " - " ++ toString (min ((i + 1) * p) N) } := by
  have hlen : (pageSelectorData N p).length = (N + p - 1) / p := by
    simp [pageSelectorData]
  have hdm : p * ((N + p - 1) / p) + (N + p - 1) % p = N + p - 1 :=
    Nat.div_add_mod _ _
  have hml : (N + p - 1) % p < p := Nat.mod_lt _ hp
  have hq1 : 1 ≤ (N + p - 1) / p := by
    rw [Nat.le_div_iff_mul_le hp]; omega
  have hmul : p * ((N + p - 1) / p - 1) + p = p * ((N + p - 1) / p) := by
    rcases Nat.exists_eq_add_of_le hq1 with ⟨k, hk⟩
    have hk1 : 1 + k - 1 = k := by omega
    rw [hk, hk1, Nat.mul_add, Nat.mul_one]
    ring
  refine ⟨hlen, ?_, ?_, ?_⟩
  · rw [hlen]; omega
  · rw [hlen]; omega
  · intro i h
    simp [pageSelectorData]

/-- Witness for C2 at `N = 5`, `p = 2`: three pages. -/
theorem C2_pageSelectorData_witness :
    0 < 5 ∧ 0 < 2 ∧
    ((pageSelectorData 5 2).length = (5 + 2 - 1) / 2 ∧
      5 ≤ 2 * (pageSelectorData 5 2).length ∧
      2 * ((pageSelectorData 5 2).length - 1) < 5 ∧
      ∀ i, (h : i < (pageSelectorData 5 2).length) →
        (pageSelectorData 5 2)[i] =
          { value := i + 1,
            text := toString (i * 2 + 1) ++ " - " ++ toString (min ((i + 1) * 2) 5) }) :=
  ⟨by decide, by decide, C2_pageSelectorData 5 2 (by decide) (by decide)⟩

/-- C4: the history-events background refresh is a plain fixed 20-second
interval timer: the configured delay is 20000 ms (= 20 s), consecutive
callback invocations of a continuously-active timer are exactly one delay
apart (no backoff or adaptive scheduling), and the watcher controlling the
timer only mirrors the polling condition into the framework pause/resume
state (active exactly when polling is wanted). -/
theorem C4_historyEventsRefreshTimer :
    historyEventsRefreshDelayMs = 20 * 1000 ∧
    (∀ s n, intervalFireTime historyEventsRefreshDelayMs s (n + 1) -
        intervalFireTime historyEventsRefreshDelayMs s n = 20000) ∧
    (∀ shouldFetch active, refreshWatchStep shouldFetch active = shouldFetch) := by
  refine ⟨rfl, ?_, ?_⟩
  · intro s n
    simp only [intervalFireTime, historyEventsRefreshDelayMs]
    omega
  · intro shouldFetch active
    cases shouldFetch <;> cases active <;> rfl

/-- The index `findIndex` returns on a list split around its first
match. -/
theorem findIdx_eq_of_first_match {α : Type} (p : α → Bool) (pre post : List α)
    (x : α) (hx : p x = true) (hpre : ∀ y ∈ pre, p y = false) :
    (pre ++ x :: post).findIdx? p = some pre.length := by
  induction pre with
  | nil => simp [List.findIdx?_cons, hx]
  | cons a as ih =>
    have ha : p a = false := hpre a (by simp)
    have ih2 := ih (fun y hy => hpre y (by simp [hy]))
    simp [List.findIdx?_cons, ha, ih2]

/-- Erasing at the split point removes exactly the element at the split. -/
theorem eraseIdx_at_split {α : Type} (pre post : List α) (x : α) :
    (pre ++ x :: post).eraseIdx pre.length = pre ++ post := by
  induction pre with
  | nil => simp
  | cons a as ih => simp [List.eraseIdx, ih]

/-- C7: when `db` occurs in the backups list (split as
`pre ++ x :: post` with `x` the first `isSameEntry`-equal entry), a
successful `remove(db)` drops exactly that first equal entry from the list
and every equal entry from the selection, raising no notification; when the
backend delete call throws, both the backups list and the selection are
left unchanged and a delete-error notification is raised instead. -/
theorem C7_removeBackup (db x : UserDbBackup) (directory : String)
    (info : DatabaseInfo) (selected pre post : List UserDbBackup)
    (hsplit : info.userdb.backups = pre ++ x :: post)
    (hx : isSameEntry x db = true)
    (hpre : ∀ y ∈ pre, isSameEntry y db = false) :
    removeBackup db directory (.ok ()) (some info) selected =
      ((some { info with userdb := { info.userdb with backups := pre ++ post } },
        selected.filter (fun item => !isSameEntry item db)), none) ∧
    ∀ e, removeBackup db directory (.error e) (some info) selected =
      ((some info, selected),
        some (deleteErrorNotification (getFilepath db directory) e)) := by
  constructor
  · have hidx : jsFindIndex info.userdb.backups (fun backup => isSameEntry backup db) =
        (pre.length : Int) := by
      rw [jsFindIndex, hsplit, findIdx_eq_of_first_match _ pre post x hx hpre]
    have hsplice :
        jsSpliceRemoveOne info.userdb.backups (pre.length : Int) = pre ++ post := by
      rw [jsSpliceRemoveOne, hsplit]
      have hneg : ¬((pre.length : Int) < 0) := by omega
      simp only [hneg, if_false, Int.toNat_natCast]
      exact eraseIdx_at_split pre post x
    have hsel :
        (if selected.length > 0 then
          selected.filter (fun item => !isSameEntry item db)
        else selected) = selected.filter (fun item => !isSameEntry item db) := by
      cases selected with
      | nil => simp
      | cons a as => simp
    simp only [removeBackup, hidx, hsplice, hsel]
  · intro e
    rfl

/-- Witness for C7: a two-entry backups list whose second entry is removed,
and the equal selected entry dropped. -/
theorem C7_removeBackup_witness :
    (({ globaldb := { globaldbAssetsVersion := 14, globaldbSchemaVersion := 5 },
        userdb := { info := { filepath := "/data/rotkehlchen.db", size := 9, version := 35 },
                    backups := [{ version := 34, time := 100, size := 7 },
                                { version := 35, time := 200, size := 8 }] } } :
        DatabaseInfo).userdb.backups =
      [{ version := 34, time := 100, size := 7 }] ++
        ({ version := 35, time := 200, size := 8 } : UserDbBackup) :: []) ∧
    isSameEntry { version := 35, time := 200, size := 8 }
      { version := 35, time := 200, size := 8 } = true ∧
    removeBackup { version := 35, time := 200, size := 8 } "/data/" (.ok ())
      (some { globaldb := { globaldbAssetsVersion := 14, globaldbSchemaVersion := 5 },
              userdb := { info := { filepath := "/data/rotkehlchen.db", size := 9, version := 35 },
                          backups := [{ version := 34, time := 100, size := 7 },
                                      { version := 35, time := 200, size := 8 }] } })
      [{ version := 35, time := 200, size := 8 }] =
      ((some { globaldb := { globaldbAssetsVersion := 14, globaldbSchemaVersion := 5 },
               userdb := { info := { filepath := "/data/rotkehlchen.db", size := 9, version := 35 },
                           backups := [{ version := 34, time := 100, size := 7 }] ++ [] } },
        ([{ version := 35, time := 200, size := 8 }] : List UserDbBackup).filter
          (fun item => !isSameEntry item { version := 35, time := 200, size := 8 })), none) :=
  ⟨rfl, by decide,
    (C7_removeBackup { version := 35, time := 200, size := 8 }
      { version := 35, time := 200, size := 8 } "/data/"
      { globaldb := { globaldbAssetsVersion := 14, globaldbSchemaVersion := 5 },
        userdb := { info := { filepath := "/data/rotkehlchen.db", size := 9, version := 35 },
                    backups := [{ version := 34, time := 100, size := 7 },
                                { version := 35, time := 200, size := 8 }] } }
      [{ version := 35, time := 200, size := 8 }]
      [{ version := 34, time := 100, size := 7 }] []
      rfl (by decide) (by decide)).1⟩

/-- C3 counterexample: a structured `ApiValidationError` carrying a
per-field message for `name` is caught by the managed-asset `save` and
mapped into the per-field external validation results, with no
toast/dialog message raised at all — refuting the claim that every failing
backend call is handled by surfacing the backend error message in a
toast/dialog and that no mapping of structured backend validation errors
into per-field form errors is applied. -/
theorem C3_assetFormFieldErrors_counterexample :
    assetSaveCatch false
        (.apiValidation (.fieldErrs
          { underlyingTokens := none, schemaErrors := none,
            fields := [("name", ["asset name is required"])] })) =
      { messages := [], fieldErrors := [("name", ["asset name is required"])] } ∧
    (assetSaveCatch false
        (.apiValidation (.fieldErrs
          { underlyingTokens := none, schemaErrors := none,
            fields := [("name", ["asset name is required"])] }))).messages = [] ∧
    (assetSaveCatch false
        (.apiValidation (.fieldErrs
          { underlyingTokens := none, schemaErrors := none,
            fields := [("name", ["asset name is required"])] }))).fieldErrors ≠ [] := by
  refine ⟨rfl, rfl, ?_⟩
  decide

/-- C3 (amended): backend-call failure handling is predominantly
try/catch-and-notify — the backup-info loader and the external-service key
save surface the backend error message in a notification/message and leave
their state unchanged, and a plain error in the asset form becomes a dialog
message — but the managed-asset form is an exception: a structured
`ApiValidationError` payload is mapped into per-field form errors (the
vuelidate external results), not into a toast of the raw message. -/
theorem C3_errorHandling :
    (∀ serviceName e st,
      (externalServicesSave serviceName (.error e) st).1 = st ∧
      (externalServicesSave serviceName (.error e) st).2 =
        { title := tr "external_services.set.error.title" [],
          description := tr "external_services.set.error.message" [e],
          success := false }) ∧
    (∀ e st,
      loadInfo (.error e) st =
        (st, [{ display := true,
                title := tr "database_backups.load_error.title" [],
                message := tr "database_backups.load_error.message" [e] }])) ∧
    (∀ editing msg,
      assetSaveCatch editing (.generic msg) =
        { messages :=
            [{ title := tr (if editing then "asset_form.edit_error"
                 else "asset_form.add_error") [],
               description := msg, success := false }],
          fieldErrors := [] }) ∧
    (∀ editing obj,
      (assetSaveCatch editing (.apiValidation (.fieldErrs obj))).fieldErrors =
        obj.fields) := by
  refine ⟨fun serviceName e st => ⟨rfl, rfl⟩, fun e st => rfl, fun editing msg => rfl,
    fun editing obj => rfl⟩

/-- C5 counterexample: the edit-snapshot total step is a client-side
operation that establishes exactly the relationship the claim rules out.
Accepting the suggested computed total (`setTotal` with `assetTotal`) and
saving overwrites the `total` location entry with the total computed from
the balance entries (assets minus liabilities): the entry changes from 9
to the computed 3. -/
theorem C5_snapshotTotal_counterexample :
    assetTotal balancesCx = 3 ∧
    saveTotal locationsCx
        (numericTotal (setTotal (assetTotal balancesCx) "USD" 1) "USD" 1) =
      some [{ timestamp := 1000, location := "kraken", usdValue := 10 },
            { timestamp := 1000, location := "total", usdValue := 3 }] ∧
    (3 : Rat) ≠ 9 := by
  have hl : ¬("liability" : String) = "asset" := by decide
  have hk : ¬("kraken" : String) = "total" := by decide
  have h3 : assetTotal balancesCx = 3 := by
    norm_num [assetTotal, balancesCx, hl]
  have hn : numericTotal (setTotal (assetTotal balancesCx) "USD" 1) "USD" 1 = 3 := by
    rw [h3]; norm_num [numericTotal, setTotal]
  refine ⟨h3, ?_, by norm_num⟩
  rw [hn]
  norm_num [saveTotal, locationsCx, hk]

/-- `save` on a location list split at its first `total` row overwrites
exactly that row. -/
theorem saveTotal_at_split (pre post : List LocationDataSnapshot)
    (x : LocationDataSnapshot) (tot : Rat) (hx : x.location = "total")
    (hpre : ∀ y ∈ pre, y.location ≠ "total") :
    saveTotal (pre ++ x :: post) tot =
      some (pre ++ { x with usdValue := tot } :: post) := by
  induction pre with
  | nil => simp [saveTotal, hx]
  | cons a as ih =>
    have ha : a.location ≠ "total" := hpre a (by simp)
    have ih2 := ih (fun y hy => hpre y (by simp [hy]))
    simp [saveTotal, ha, ih2]

/-- C5 (amended): the client-side entities are mostly plain data-transfer
shapes, but the edit-snapshot total step maintains a relationship between
entity fields: its `save` writes the (converted) total input into the first
`total` location row, and when the user accepts the suggested computed
asset total, that row ends up equal to `assetTotal` — the total computed
from the balance entries with liabilities negated.  Also, when asset and
location totals agree within `1e-8`, the form offers exactly that computed
total as the single suggestion. -/
theorem C5_snapshotTotal (balances : List BalanceSnapshot)
    (value pre post : List LocationDataSnapshot) (x : LocationDataSnapshot)
    (rate : Rat)
    (hsplit : value = pre ++ x :: post)
    (hx : x.location = "total")
    (hpre : ∀ y ∈ pre, y.location ≠ "total") :
    saveTotal value
        (numericTotal (setTotal (assetTotal balances) "USD" rate) "USD" rate) =
      some (pre ++ { x with usdValue := assetTotal balances } :: post) ∧
    (|assetTotal balances - locationTotal value| < 1 / 100000000 →
      totalSuggestions balances value = .totalOnly (assetTotal balances)) := by
  have hnum :
      numericTotal (setTotal (assetTotal balances) "USD" rate) "USD" rate =
        assetTotal balances := by
    simp [numericTotal, setTotal]
  constructor
  · rw [hnum, hsplit]
    exact saveTotal_at_split pre post x _ hx hpre
  · intro hclose
    simp only [totalSuggestions]
    rw [if_pos hclose]

/-- Witness for C5 at a snapshot with one asset row and a `total` row
preceded by one exchange row. -/
theorem C5_snapshotTotal_witness :
    (locationsW =
      [{ timestamp := 2000, location := "binance", usdValue := 7 }] ++
        ({ timestamp := 2000, location := "total", usdValue := 9 } :
          LocationDataSnapshot) :: []) ∧
    saveTotal locationsW
        (numericTotal (setTotal (assetTotal balancesW) "USD" 1) "USD" 1) =
      some ([{ timestamp := 2000, location := "binance", usdValue := 7 }] ++
        { timestamp := 2000, location := "total",
          usdValue := assetTotal balancesW } :: []) :=
  ⟨rfl,
    (C5_snapshotTotal balancesW locationsW
      [{ timestamp := 2000, location := "binance", usdValue := 7 }] []
      { timestamp := 2000, location := "total", usdValue := 9 } 1
      rfl rfl (by simp [locationsW])).1⟩

/-- C1 counterexample: an entry whose value passes the configured string
matcher `validate` predicate but serializes to the (falsy) empty keyword is
dropped by `updateMatches` from both the emitted matches object and the
retained selection, refuting the claim that every validated entry is
parsed into a key/value filter. -/
theorem C1_updateMatches_counterexample :
    cxAcceptAll.validate "" = true ∧
    updateMatches cxMatchers [cxEntry] = some ([], []) := by
  exact ⟨rfl, rfl⟩

/-- C1 (amended): for an entry whose key resolves to a configured string
matcher and whose value passes `validate` and serializes to a non-empty
keyword, the `updateMatches` loop body emits the serialized value (tagged
with the exclusion mark when excluded) under the matcher `keyValue` target
(`valueKeyOf`, the key itself when `keyValue` is absent) and retains the
entry in the selection; a `multiple` matcher accumulates into the array at
the target and any other matcher replaces the previous value; an entry
whose value fails `validate` is omitted from both the emitted matches and
the retained selection.  An entry that validates but yields an empty
keyword is dropped (see the counterexample). -/
theorem C1_updateMatches (M : List SearchMatcher) (e : Suggestion)
    (m : SearchMatcher) (d : StrMatcherData) (s : String)
    (hm : matcherForKey M e.key = some m)
    (hkind : m.kind = .strKind d)
    (hv : e.value = .strValue s) :
    (d.validate s = false →
      ∀ matched valid, updateLoop M [e] matched valid = some (matched, valid)) ∧
    (d.validate s = true → serializedOf d s ≠ "" →
      ∀ matched valid,
        (m.multiple = false →
          updateLoop M [e] matched valid =
            some (setSingle matched (valueKeyOf m)
                (excludeTag e.exclude (serializedOf d s)),
              valid ++ [e]) ∧
          mLookup
              (setSingle matched (valueKeyOf m)
                (excludeTag e.exclude (serializedOf d s)))
              (valueKeyOf m) =
            some (.single (excludeTag e.exclude (serializedOf d s)))) ∧
        (m.multiple = true →
          ∀ l, oldArrAt matched (valueKeyOf m) = some l →
            ∃ matched2,
              updateLoop M [e] matched valid = some (matched2, valid ++ [e]) ∧
              mLookup matched2 (valueKeyOf m) =
                some (.arr (l ++ [excludeTag e.exclude (serializedOf d s)])))) := by
  constructor
  · intro hval matched valid
    have hkw : entryKeyword m e = none := by
      simp [entryKeyword, hkind, hv, hval]
    simp [updateLoop, hm, hkw]
  · intro hval hser matched valid
    have hkw : entryKeyword m e =
        some (excludeTag e.exclude (serializedOf d s)) := by
      simp [entryKeyword, hkind, hv, hval, excludeTag]
    have htne : excludeTag e.exclude (serializedOf d s) ≠ "" := by
      cases he : e.exclude with
      | true => simpa [excludeTag] using bangAppend_ne_empty (serializedOf d s)
      | false => simpa [excludeTag] using hser
    constructor
    · intro hmul
      refine ⟨?_, mLookup_setSingle_self matched _ _⟩
      simp [updateLoop, hm, hkw, htne, hmul]
    · intro hmul l hold
      obtain ⟨matched2, hpush, hlook⟩ :=
        pushMulti_oldArr matched (valueKeyOf m)
          (excludeTag e.exclude (serializedOf d s)) l hold
      refine ⟨matched2, ?_, hlook⟩
      simp [updateLoop, hm, hkw, htne, hmul, hpush]

/-- Witness for C1: the `action=deposit` entry is emitted under `action`
and retained. -/
theorem C1_updateMatches_witness :
    wActionData.validate "deposit" = true ∧
    serializedOf wActionData "deposit" ≠ "" ∧
    (updateLoop [wActionMatcher] [wActionEntry] [] [] =
      some (setSingle [] (valueKeyOf wActionMatcher)
          (excludeTag wActionEntry.exclude (serializedOf wActionData "deposit")),
        [] ++ [wActionEntry]) ∧
      mLookup
          (setSingle [] (valueKeyOf wActionMatcher)
            (excludeTag wActionEntry.exclude (serializedOf wActionData "deposit")))
          (valueKeyOf wActionMatcher) =
        some (.single
          (excludeTag wActionEntry.exclude (serializedOf wActionData "deposit")))) :=
  ⟨by decide, by decide,
    ((C1_updateMatches [wActionMatcher] wActionEntry wActionMatcher wActionData
        "deposit" rfl rfl rfl).2 (by decide) (by decide) [] []).1 rfl⟩

/-! ## Round-trip machinery for the table filter (C6) -/

theorem mk_data_eq (s : String) : String.mk s.data = s := by
  cases s
  rfl

theorem jsStartsWithBang_bangAppend (t : String) :
    jsStartsWithBang ("!" ++ t) = true := by
  have hd : ("!" ++ t).data = Char.ofNat 33 :: t.data := by
    rw [String.data_append]
    rfl
  simp [jsStartsWithBang, hd]

theorem jsDropFirst_bangAppend (t : String) : jsDropFirst ("!" ++ t) = t := by
  have hd : ("!" ++ t).data = Char.ofNat 33 :: t.data := by
    rw [String.data_append]
    rfl
  rw [jsDropFirst, hd]
  exact mk_data_eq t

theorem matcherForKey_key (M : List SearchMatcher) (k : String)
    (m : SearchMatcher) (h : matcherForKey M k = some m) : m.key = k := by
  have := List.find?_some h
  simpa using this

theorem setSingle_of_not_mem (matched : Matched) (k t : String)
    (h : ¬k ∈ matched.map Prod.fst) :
    setSingle matched k t = matched ++ [(k, .single t)] := by
  induction matched with
  | nil => simp [setSingle]
  | cons p rest ih =>
    obtain ⟨k1, v1⟩ := p
    have h1 : k1 ≠ k := fun he => h (by simp [he])
    have h2 : ¬k ∈ rest.map Prod.fst := fun hmem => h (by simp [hmem])
    simp [setSingle, h1, ih h2]

theorem pushMulti_of_not_mem (matched : Matched) (k t : String)
    (h : ¬k ∈ matched.map Prod.fst) :
    pushMulti matched k t = some (matched ++ [(k, .arr [t])]) := by
  induction matched with
  | nil => simp [pushMulti]
  | cons p rest ih =>
    obtain ⟨k1, v1⟩ := p
    have h1 : k1 ≠ k := fun he => h (by simp [he])
    have h2 : ¬k ∈ rest.map Prod.fst := fun hmem => h (by simp [hmem])
    simp [pushMulti, h1, ih h2]

theorem updateLoop_all_ok (M : List SearchMatcher) (sel : List Suggestion) :
    ∀ (matched : Matched) (valid : List Suggestion),
      (∀ e ∈ sel, entryOK M e) →
      (∀ e ∈ sel, ¬(entryEmit M e).1 ∈ matched.map Prod.fst) →
      (sel.map (fun e => (entryEmit M e).1)).Nodup →
      updateLoop M sel matched valid =
        some (matched ++ sel.map (entryEmit M), valid ++ sel) := by
  induction sel with
  | nil => intro matched valid _ _ _; simp [updateLoop]
  | cons e rest ih =>
    intro matched valid hok hfresh hnodup
    obtain ⟨m, d, s, kv, hm, hkind, hv, hval, hser, hbang, hkv, hkvne, hkv2, hinv⟩ :=
      hok e (by simp)
    have hvk : valueKeyOf m = kv := by simp [valueKeyOf, hkv, hkvne]
    have hee : entryEmit M e =
        (kv, if m.multiple then .arr [excludeTag e.exclude (serializedOf d s)]
          else .single (excludeTag e.exclude (serializedOf d s))) := by
      simp [entryEmit, hm, hkind, hv, hvk]
    have hkw : entryKeyword m e =
        some (excludeTag e.exclude (serializedOf d s)) := by
      simp [entryKeyword, hkind, hv, hval, excludeTag]
    have htne : excludeTag e.exclude (serializedOf d s) ≠ "" := by
      cases he : e.exclude with
      | true => simpa [excludeTag] using bangAppend_ne_empty (serializedOf d s)
      | false => simpa [excludeTag] using hser
    have hfresh0 : ¬kv ∈ matched.map Prod.fst := by
      have := hfresh e (by simp)
      rwa [hee] at this
    have hnodup0 := List.nodup_cons.mp (by rwa [List.map_cons] at hnodup)
    have hrest_ok : ∀ x ∈ rest, entryOK M x := fun x hx => hok x (by simp [hx])
    cases hmul : m.multiple with
    | false =>
      have hset := setSingle_of_not_mem matched kv
        (excludeTag e.exclude (serializedOf d s)) hfresh0
      have hfresh2 : ∀ x ∈ rest,
          ¬(entryEmit M x).1 ∈
            (matched ++ [(kv, MatchedValue.single
              (excludeTag e.exclude (serializedOf d s)))]).map Prod.fst := by
        intro x hx hmem
        have h2 : (entryEmit M x).1 ≠ kv := by
          intro hcontra
          apply hnodup0.1
          have hekv : (entryEmit M e).1 = kv := by rw [hee]
          rw [hekv, ← hcontra]
          exact List.mem_map.mpr ⟨x, hx, rfl⟩
        rw [List.map_append] at hmem
        rcases List.mem_append.mp hmem with hA | hB
        · exact hfresh x (by simp [hx]) hA
        · exact h2 (by simpa using hB)
      have ihr := ih (matched ++ [(kv, MatchedValue.single
          (excludeTag e.exclude (serializedOf d s)))]) (valid ++ [e])
        hrest_ok hfresh2 hnodup0.2
      rw [show updateLoop M (e :: rest) matched valid =
          updateLoop M rest (setSingle matched (valueKeyOf m)
            (excludeTag e.exclude (serializedOf d s))) (valid ++ [e]) from by
        simp [updateLoop, hm, hkw, htne, hmul]]
      rw [hvk, hset, ihr]
      simp [hee, hmul]
    | true =>
      have hpush := pushMulti_of_not_mem matched kv
        (excludeTag e.exclude (serializedOf d s)) hfresh0
      have hfresh2 : ∀ x ∈ rest,
          ¬(entryEmit M x).1 ∈
            (matched ++ [(kv, MatchedValue.arr
              [excludeTag e.exclude (serializedOf d s)])]).map Prod.fst := by
        intro x hx hmem
        have h2 : (entryEmit M x).1 ≠ kv := by
          intro hcontra
          apply hnodup0.1
          have hekv : (entryEmit M e).1 = kv := by rw [hee]
          rw [hekv, ← hcontra]
          exact List.mem_map.mpr ⟨x, hx, rfl⟩
        rw [List.map_append] at hmem
        rcases List.mem_append.mp hmem with hA | hB
        · exact hfresh x (by simp [hx]) hA
        · exact h2 (by simpa using hB)
      have ihr := ih (matched ++ [(kv, MatchedValue.arr
          [excludeTag e.exclude (serializedOf d s)])]) (valid ++ [e])
        hrest_ok hfresh2 hnodup0.2
      rw [show updateLoop M (e :: rest) matched valid =
          updateLoop M rest (matched ++ [(kv, MatchedValue.arr
            [excludeTag e.exclude (serializedOf d s)])]) (valid ++ [e]) from by
        simp [updateLoop, hm, hkw, htne, hmul, hvk, hpush]]
      rw [ihr]
      simp [hee, hmul]

/-- Restoring the emitted pair of a round-trip-safe entry yields exactly
the reconstructed chip. -/
theorem restoreEntry_emit (M : List SearchMatcher) (old : List Suggestion)
    (e : Suggestion) (h : entryOK M e) :
    restoreEntry M old (entryEmit M e).1 (entryEmit M e).2 =
      [{ index := 0, total := 1, asset := false, key := e.key,
         value := e.value, exclude := e.exclude }] := by
  obtain ⟨m, d, s, kv, hm, hkind, hv, hval, hser, hbang, hkv, hkvne, hkv2, hinv⟩ := h
  have hvk : valueKeyOf m = kv := by simp [valueKeyOf, hkv, hkvne]
  have hee : entryEmit M e =
      (kv, if m.multiple then .arr [excludeTag e.exclude (serializedOf d s)]
        else .single (excludeTag e.exclude (serializedOf d s))) := by
    simp [entryEmit, hm, hkind, hv, hvk]
  have hkey : m.key = e.key := matcherForKey_key M e.key m hm
  have htne : excludeTag e.exclude (serializedOf d s) ≠ "" := by
    cases he : e.exclude with
    | true => simpa [excludeTag] using bangAppend_ne_empty (serializedOf d s)
    | false => simpa [excludeTag] using hser
  have hstrip : jsStartsWithBang (excludeTag e.exclude (serializedOf d s)) =
      e.exclude := by
    cases he : e.exclude with
    | true => simpa [excludeTag] using jsStartsWithBang_bangAppend (serializedOf d s)
    | false => simpa [excludeTag] using hbang
  have hnorm :
      (if jsStartsWithBang (excludeTag e.exclude (serializedOf d s)) then
        jsDropFirst (excludeTag e.exclude (serializedOf d s))
      else excludeTag e.exclude (serializedOf d s)) = serializedOf d s := by
    rw [hstrip]
    cases he : e.exclude with
    | true => simpa [excludeTag] using jsDropFirst_bangAppend (serializedOf d s)
    | false => simp [excludeTag]
  have hnorm2 :
      (if e.exclude = true then
        jsDropFirst (excludeTag e.exclude (serializedOf d s))
      else excludeTag e.exclude (serializedOf d s)) = serializedOf d s := by
    cases he : e.exclude with
    | true => simpa [excludeTag] using jsDropFirst_bangAppend (serializedOf d s)
    | false => simp [excludeTag]
  rw [hee]
  cases hmul : m.multiple with
  | false =>
    simp only [restoreEntry, hkv2, mvFalsy, htne, if_neg, hkind]
    simp [hkey, hnorm, hnorm2, hinv, hstrip, hv, htne]
  | true =>
    simp only [restoreEntry, hkv2, mvFalsy, hkind]
    simp [hkey, hnorm, hnorm2, hinv, hstrip, hv, htne]

/-- Restoring a list of emitted pairs of round-trip-safe entries. -/
theorem restore_map (M : List SearchMatcher) (old : List Suggestion)
    (sel : List Suggestion) (h : ∀ e ∈ sel, entryOK M e) :
    restoreSelection M old (sel.map (entryEmit M)) =
      sel.map (fun e =>
        { index := 0, total := 1, asset := false, key := e.key,
          value := e.value, exclude := e.exclude }) := by
  induction sel with
  | nil => simp [restoreSelection]
  | cons e rest ih =>
    have hrest := ih (fun x hx => h x (by simp [hx]))
    have he := restoreEntry_emit M old e (h e (by simp))
    simp only [restoreSelection, List.map_cons, List.flatten_cons] at hrest ⊢
    rw [he, hrest]
    simp

/-- C6 counterexample: for a string matcher without `keyValue` (whose
implicit serializer/deserializer are identities, hence inverse), the entry
validates and `updateMatches` emits it under the matcher key, but
`restoreSelection` looks matchers up by `keyValue` only, finds none, and
restores the empty selection — the round trip loses the entry. -/
theorem C6_roundTrip_counterexample :
    c6NoKvData.validate "v" = true ∧
    updateMatches c6NoKvMatchers c6NoKvSel =
      some (c6NoKvSel, [("k", .single "v")]) ∧
    restoreSelection c6NoKvMatchers [] [("k", .single "v")] = [] :=
  ⟨rfl, rfl, rfl⟩

/-- C6 (amended): for a selection of string-matcher entries whose values
pass validation and serialize to non-empty keywords not starting with the
exclusion mark, where each entry resolves to a matcher that defines a
non-empty `keyValue` resolving back (via the `keyValue` lookup) to the
same matcher, the emitted target keys are pairwise distinct, and the
deserializer (with its falsy-output fallback) inverts the serializer on
each value, restoring the selection from the matches object emitted by
`updateMatches` reproduces every entry, with its key, value and exclude
flag intact (and the restored bookkeeping fields `index 0`, `total 1`,
`asset false`). -/
theorem C6_roundTrip (M : List SearchMatcher) (old sel : List Suggestion)
    (hok : ∀ e ∈ sel, entryOK M e)
    (hkvs : (sel.map (fun e => (entryEmit M e).1)).Nodup) :
    ∃ matched, updateMatches M sel = some (sel, matched) ∧
      restoreSelection M old matched =
        sel.map (fun e =>
          { index := 0, total := 1, asset := false, key := e.key,
            value := e.value, exclude := e.exclude }) := by
  refine ⟨sel.map (entryEmit M), ?_, restore_map M old sel hok⟩
  rw [updateMatches, updateLoop_all_ok M sel [] [] hok (by simp) hkvs]
  simp

/-- Witness for C6: the excluded `start` entry survives the round trip. -/
theorem C6_roundTrip_witness :
    (∀ e ∈ c6wSel, entryOK [c6wMatcher] e) ∧
    (c6wSel.map (fun e => (entryEmit [c6wMatcher] e).1)).Nodup ∧
    (∃ matched, updateMatches [c6wMatcher] c6wSel = some (c6wSel, matched) ∧
      restoreSelection [c6wMatcher] [] matched =
        c6wSel.map (fun e =>
          { index := 0, total := 1, asset := false, key := e.key,
            value := e.value, exclude := e.exclude })) := by
  have hok : ∀ e ∈ c6wSel, entryOK [c6wMatcher] e := by
    intro e he
    simp only [c6wSel, List.mem_singleton] at he
    subst he
    exact ⟨c6wMatcher, c6wData, "17", "fromTimestamp", rfl, rfl, rfl,
      by decide, by decide, by decide, rfl, by decide, rfl, by decide⟩
  exact ⟨hok, by decide, C6_roundTrip [c6wMatcher] [] c6wSel hok (by decide)⟩

end Rotki

